import Mathlib

/-!
Verification development for the MyWorkView board-data viewer.

The definitions below are a shallow embedding of the JavaScript sources:
`src/hooks/useMondayAPI.jsx` (the `queryMonday` executor),
`src/App.jsx` (the `retry` helper, `fetchBoardData`, the settings
load/save effects, the polling tick guard and
`allAvailableColumnsForSelectedBoards`), and
`src/components/TaskTable/TaskTable.jsx` (filtering and sorting of board
items).  Host primitives (JSON.parse, Date parsing, localeCompare, the
stable Array.prototype.sort) are modelled by explicit executable Lean
functions, documented at their definitions.
-/

namespace MWV

/-! ## String helpers modelling JavaScript string primitives -/

/-- Does the character list starting at the current position begin with the
pattern?  Models the inner step of JavaScript `String.prototype.includes`. -/
def charsStartWith : List Char → List Char → Bool
  | [], _ => true
  | _ :: _, [] => false
  | p :: ps, c :: cs => p = c && charsStartWith ps cs

/-- Does `pat` occur as a contiguous substring of `text`?  Models
JavaScript `text.includes(pat)` (every string contains the empty string). -/
def charsHasSub (text pat : List Char) : Bool :=
  match text with
  | [] => pat.isEmpty
  | _ :: rest => charsStartWith pat text || charsHasSub rest pat

/-- JavaScript `s.includes(pat)`. -/
def strContains (s pat : String) : Bool :=
  charsHasSub s.toList pat.toList

/-- JavaScript `String.prototype.trim` (kernel-computable model). -/
def jsTrim (s : String) : String :=
  ⟨((s.toList.dropWhile Char.isWhitespace).reverse.dropWhile Char.isWhitespace).reverse⟩

/-! ## Error model and the two retrying executors

`MError` models a JavaScript error value as observed by the two retry
layers: its `message`, and — for transport errors that carry a response
object — the HTTP status (`error.response.status`) and the `extensions.code`
of the first structured response error
(`error.response.errors[0].extensions.code`), each `none` when the
corresponding field chain is absent. -/

structure MError where
  message : String
  responseStatus : Option Nat := none
  responseExtCode : Option String := none
deriving DecidableEq

/-- An `Error` created by `new Error(msg)`: it has a message and no
`response` field. -/
def plainError (msg : String) : MError :=
  ⟨msg, none, none⟩

/-- Transient-error classifier of the `retry` helper in `App.jsx`
(lines 30-35): concurrency-limit message, GraphQL-validation message,
HTTP 429 response status, or a `FIELD_LIMIT_EXCEEDED` extensions code. -/
def isTransientRetry (e : MError) : Bool :=
  strContains e.message "Concurrency limit exceeded" ||
  strContains e.message "Graphql validation errors" ||
  e.responseStatus == some 429 ||
  e.responseExtCode == some "FIELD_LIMIT_EXCEEDED"

/-- Rate-limit marker test used by `queryMonday` on each structured
response error message. -/
def isRateLimitMsg (m : String) : Bool :=
  strContains m "Rate limit passed" || strContains m "Rate limit exceeded"

/-- Observable outcome of one run of an executor: the settled promise
(`result`), how many attempts the run performed (`attempts`), and the sleep
durations between consecutive attempts (`sleeps`, in ms). -/
structure RunLog (α : Type) where
  result : Except MError α
  attempts : Nat
  sleeps : List Nat

/-- The `retry` helper of `App.jsx` (lines 22-44).  `fn i` is the outcome
of attempt `i` of the wrapped thunk.  Mirrors
`retry(fn, retries, delay, factor)`: on rejection, if `retries > 0` and the
error is transient, sleep `delay` and recurse with `retries - 1` and
`delay * factor`; otherwise rethrow. -/
def retry (fn : Nat → Except MError α) (retries delay factor : Nat) : RunLog α :=
  match fn 0 with
  | Except.ok a => ⟨Except.ok a, 1, []⟩
  | Except.error e =>
    match retries with
    | 0 => ⟨Except.error e, 1, []⟩
    | r + 1 =>
      if isTransientRetry e then
        let rest := retry (fun i => fn (i + 1)) r (delay * factor) factor
        ⟨rest.result, rest.attempts + 1, delay :: rest.sleeps⟩
      else ⟨Except.error e, 1, []⟩

/-- Outcome of one `monday.api` call as observed by `queryMonday`: the
promise resolves with a response object (whose `errors` field is absent, or
present with a list of error messages — an empty present list is still
truthy in JavaScript), or the promise rejects with an error. -/
inductive ApiOutcome (α : Type) where
  | response (errors : Option (List String)) (data : α)
  | reject (e : MError)

/-- The message of the thrown error that joins every structured response
error message with a semicolon-space separator. -/
def joinMsgs (errs : List String) : String :=
  String.intercalate "; " errs

/-- The `queryMonday` executor of `useMondayAPI.jsx` (lines 9-40).
`api i` is the outcome of the `i`-th `monday.api` call.  In the source, a
response with an `errors` field retries when some error message carries a
rate-limit marker and retries remain, and otherwise throws a plain
`Error` with the joined messages; that throw lands in the surrounding
`catch`, which retries when the caught message contains `Rate limit
passed` and retries remain, and rethrows otherwise; a rejected call goes
through the same `catch`.  The branch structure below is the
observationally identical flattening of that throw-then-catch control
flow: with budget left the response-errors path retries exactly when the
per-message rate-limit test or the joined-message caught-path test
fires; with no budget, or when neither fires, the joined messages are
thrown.  The delay doubles on every retry. -/
def queryMonday (api : Nat → ApiOutcome α) (retries delay : Nat) : RunLog α :=
  match api 0 with
  | ApiOutcome.response none d => ⟨Except.ok d, 1, []⟩
  | ApiOutcome.response (some errs) _ =>
    let msg := joinMsgs errs
    match retries with
    | 0 => ⟨Except.error (plainError msg), 1, []⟩
    | r + 1 =>
      if errs.any isRateLimitMsg || strContains msg "Rate limit passed" then
        let rest := queryMonday (fun i => api (i + 1)) r (delay * 2)
        ⟨rest.result, rest.attempts + 1, delay :: rest.sleeps⟩
      else ⟨Except.error (plainError msg), 1, []⟩
  | ApiOutcome.reject e =>
    match retries with
    | 0 => ⟨Except.error e, 1, []⟩
    | r + 1 =>
      if strContains e.message "Rate limit passed" then
        let rest := queryMonday (fun i => api (i + 1)) r (delay * 2)
        ⟨rest.result, rest.attempts + 1, delay :: rest.sleeps⟩
      else ⟨Except.error e, 1, []⟩

/-! ## Data model

`Json` is a small model of JavaScript JSON values (numbers restricted to
integers, which covers the person/link payloads the code inspects).
`RawValue` classifies the raw `value` string of a column value by exactly
the distinctions the code makes: JavaScript truthiness, whether it trims
to the empty string, and the outcome of `JSON.parse`. -/

inductive Json where
  | str (s : String)
  | num (n : Int)
  | bool (b : Bool)
  | null
  | arr (xs : List Json)
  | obj (fields : List (String × Json))

/-- Classification of a column value's raw `value` field:
`nullv` = JSON null / absent (falsy); `emptyStr` = `""` (falsy);
`wsOnly` = non-empty but whitespace only (truthy, trims to empty,
`JSON.parse` throws); `malformed` = truthy, trims non-empty, `JSON.parse`
throws; `json j` = truthy, parses to `j`. -/
inductive RawValue where
  | nullv
  | emptyStr
  | wsOnly
  | malformed
  | json (j : Json)

/-- A fetched column value `{id, text, value}` (`display_value` is kept
because the code reads it, though the query does not select it). -/
structure ColumnValue where
  id : String
  text : Option String
  value : RawValue
  display_value : Option String := none

/-- An item as fetched, tagged by `fetchBoardData` with its board id and
display name (the `board` and `group` sub-objects of the query are not
read by any embedded logic and are omitted). -/
structure Item where
  id : String
  name : String
  boardId : String
  boardName : String
  column_values : List ColumnValue

/-- An item as returned by the items query, before board tagging. -/
structure RawItem where
  id : String
  name : String
  column_values : List ColumnValue

/-- A column definition `{id, title, type, settings_str}` as returned by
the columns query. -/
structure RawColumn where
  id : String
  title : String
  type : String
  settings_str : Option String := none
deriving DecidableEq

/-- One board of the columns-query response: `{id, name, columns}`
(`columns` is `none` when the field is absent; the code substitutes `[]`
via `board.columns || []`). -/
structure BoardCols where
  id : String
  name : String
  columns : Option (List RawColumn) := none
deriving DecidableEq

/-- One entry of the `newAllBoardsData` map built by `fetchBoardData`:
`{id, name, columns}` keyed by board id. -/
structure BoardEntry where
  id : String
  name : String
  columns : List RawColumn
deriving DecidableEq

/-! ## Aggregation fetcher (`fetchBoardData` in `App.jsx`, lines 83-155) -/

/-- The data and error state that `fetchBoardData` reads and writes.
(The `isPolling` flag, set on entry and cleared in the `finally`, has no
net effect on a completed run and is tracked separately by
`PollFlags`.) -/
structure FetchState where
  allBoardsData : List BoardEntry
  boardItems : List Item
  columnsError : Option String
  itemsError : Option String

/-- The `catch` clause of `fetchBoardData` (lines 142-148): an error whose
message contains `"columns"` is reported as a columns error, any other as
an items error. -/
def fetchCatch (st : FetchState) (e : MError) : FetchState :=
  let colMsg := "Error loading columns: " ++ e.message ++ ". Please check selected boards."
  let itMsg := "Error loading items: " ++ e.message ++ "."
  if strContains e.message "columns" then
    { st with columnsError := some colMsg }
  else
    { st with itemsError := some itMsg }

/-- `newAllBoardsData[boardId]?.name || 'Board ' + boardId`. -/
def boardDisplayName (nabd : List BoardEntry) (boardId : String) : String :=
  match nabd.find? (fun b => b.id = boardId) with
  | some b => if b.name = "" then "Board " ++ boardId else b.name
  | none => "Board " ++ boardId

/-- The per-board item loop of `fetchBoardData` (lines 120-139).
`itemsRes bid` is the settled result of
`retry(() => queryMonday(GET_BOARD_ITEMS_WITH_COLUMNS_QUERY(bid, selC)))`:
an error, or `none` when the response lacks the expected
`boards[0].items_page.items` shape (the code warns and skips the board),
or the board's item list.  The loop fails fast on the first rejection. -/
def fetchItemsForBoards (itemsRes : String → Except MError (Option (List RawItem)))
    (nabd : List BoardEntry) (selC : List String) :
    List String → Except MError (List Item)
  | [] => Except.ok []
  | bid :: rest =>
    if selC = [] then fetchItemsForBoards itemsRes nabd selC rest
    else
      match itemsRes bid with
      | Except.error e => Except.error e
      | Except.ok none => fetchItemsForBoards itemsRes nabd selC rest
      | Except.ok (some raws) =>
        let tagged := raws.map (fun r =>
          Item.mk r.id r.name bid (boardDisplayName nabd bid) r.column_values)
        match fetchItemsForBoards itemsRes nabd selC rest with
        | Except.error e => Except.error e
        | Except.ok items => Except.ok (tagged ++ items)

/-- The `newAllBoardsData` map built by `fetchBoardData` (lines 99-117)
from the columns response: the responded boards filtered to the selected
ids, keyed by board id (`obs = none` models a response without a `boards`
field, leaving the map empty). -/
def buildBoardsData (selB : List String) (obs : Option (List BoardCols)) :
    List BoardEntry :=
  match obs with
  | some bs =>
    (bs.filter (fun b => selB.contains b.id)).map
      (fun b => ⟨b.id, b.name, b.columns.getD []⟩)
  | none => []

/-- `fetchBoardData` (lines 83-155) as a state transformer.  `colsRes` is
the settled result of `retry(() => queryMonday(GET_BOARD_COLUMNS_QUERY))`.
With no selected boards the data is cleared without any network call.
Otherwise the filtered column map is stored first (`setAllBoardsData` runs
before the item loop); then items are fetched per selected board;
`setBoardItems` runs only after every board succeeded, so a failure
leaves the previous item list untouched and routes the error through the
`catch` clause. -/
def fetchBoardData (st : FetchState) (selB selC : List String)
    (colsRes : Except MError (Option (List BoardCols)))
    (itemsRes : String → Except MError (Option (List RawItem))) : FetchState :=
  if selB = [] then
    { allBoardsData := [], boardItems := [], columnsError := none, itemsError := none }
  else
    match colsRes with
    | Except.error e => fetchCatch { st with columnsError := none, itemsError := none } e
    | Except.ok obs =>
      match fetchItemsForBoards itemsRes (buildBoardsData selB obs) selC selB with
      | Except.error e =>
        fetchCatch
          { st with
              allBoardsData := buildBoardsData selB obs
              columnsError := none
              itemsError := none } e
      | Except.ok items =>
        { st with
            allBoardsData := buildBoardsData selB obs
            boardItems := items
            columnsError := none
            itemsError := none }

/-! ## Unified column map (`allAvailableColumnsForSelectedBoards`,
`App.jsx` lines 366-378) -/

/-- Insert columns into the accumulated unified list, keeping the existing
entry when the id is already present (`if (!columnsMap.has(col.id))`). -/
def insertColumns (acc : List RawColumn) (cols : List RawColumn) : List RawColumn :=
  cols.foldl (fun acc c => if acc.any (fun x => x.id = c.id) then acc else acc ++ [c]) acc

/-- `allAvailableColumnsForSelectedBoards`: iterate the selected board ids
in order, look each up in `allBoardsData`, and fold its columns into a
map keyed by column id; the result is the map's values in insertion
order. -/
def allAvailableColumnsForSelectedBoards (selB : List String)
    (abd : List BoardEntry) : List RawColumn :=
  selB.foldl (fun acc bid =>
    match abd.find? (fun b => b.id = bid) with
    | some bd => insertColumns acc bd.columns
    | none => acc) []

/-- The columns of the board a selected id refers to (empty when the id is
not in `allBoardsData`): the stream of columns the merge traverses, in
board iteration order. -/
def columnStream (selB : List String) (abd : List BoardEntry) : List RawColumn :=
  (selB.map (fun bid =>
    match abd.find? (fun b => b.id = bid) with
    | some bd => bd.columns
    | none => [])).flatten

/-! ## Background polling tick (`App.jsx` lines 270-291) -/

/-- The component state read by the polling interval callback. -/
structure PollFlags where
  isAppLoading : Bool
  isLoadingColumns : Bool
  isLoadingItems : Bool
  isPolling : Bool
  selectedBoardIds : List String
  selectedColumnIds : List String

/-- Guard of the `setInterval` callback: the tick invokes `fetchBoardData`
exactly when no initial/filter load is in progress and both selections
are non-empty (`App.jsx` line 277). -/
def pollingTickRunsFetch (s : PollFlags) : Bool :=
  !s.isAppLoading && !s.isLoadingColumns && !s.isLoadingItems &&
  decide (0 < s.selectedBoardIds.length) && decide (0 < s.selectedColumnIds.length)

/-! ## View reconciler (`TaskTable.jsx`)

Column metadata as consumed by the filter/sort logic: only `id`, `title`
and `type` are read (the `statusOptions` enrichment of `columnsForTable`
is used for rendering only). -/

structure ColumnMeta where
  id : String
  title : String
  type : String
deriving DecidableEq

/-- A cached user record (`GET_USER_DETAILS_QUERY` result). -/
structure UserRec where
  id : String
  name : String
  photo_original : Option String := none
deriving DecidableEq

/-- JavaScript truthiness of a JSON value (arrays and objects are always
truthy; NaN does not occur in parsed JSON). -/
def jsTruthy : Json → Bool
  | Json.str s => !(s = "")
  | Json.num n => !(n = 0)
  | Json.bool b => b
  | Json.null => false
  | Json.arr _ => true
  | Json.obj _ => true

/-- Property access `j[f]` modelled for the payload shapes the code
inspects: a field of an object, `none` (undefined) otherwise.  (For a
non-object the real host would also yield undefined, except `null`, where
access throws; the embedded code only reaches this accessor behind checks
that exclude that case for the payloads the platform produces.) -/
def jsonField : Json → String → Option Json
  | Json.obj fs, f => (fs.find? (fun e => e.1 = f)).map (fun e => e.2)
  | _, _ => none

/-- JavaScript `String(v)` for a JSON value, as used to coerce person ids
into cache keys (ids are strings or numbers; the array/object cases are
modelled loosely and are unreachable for platform payloads). -/
def jsToString : Json → String
  | Json.str s => s
  | Json.num n => toString n
  | Json.bool b => if b then "true" else "false"
  | Json.null => "null"
  | Json.arr _ => ""
  | Json.obj _ => "[object Object]"

/-- JavaScript `a || b` for an optional string `a` (`null`/`undefined` and
the empty string are falsy). -/
def orFalsyStr (a : Option String) (b : String) : String :=
  match a with
  | some v => if v = "" then b else v
  | none => b

/-- `p.kind === 'person'` for one element of a persons array. -/
def isPersonKind (p : Json) : Bool :=
  match jsonField p "kind" with
  | some (Json.str s) => s = "person"
  | _ => false

/-- Person extraction of the filter paths (`TaskTable.jsx` lines 517-523
and analogous blocks): a truthy `personsAndTeams` array field wins,
otherwise a bare array payload, otherwise no persons. -/
def personsOfFilter (parsed : Json) : List Json :=
  match jsonField parsed "personsAndTeams" with
  | some (Json.arr xs) => xs.filter isPersonKind
  | _ =>
    match parsed with
    | Json.arr xs => xs.filter isPersonKind
    | _ => []

/-- `String(itemColumnValue ? itemColumnValue.text : '')` of the status
filter branch: a missing column value gives the empty string, a `null`
text stringifies to `"null"`. -/
def rawStatusText (icv : Option ColumnValue) : String :=
  match icv with
  | none => ""
  | some cv =>
    match cv.text with
    | none => "null"
    | some t => t

/-- Status normalization used by the filter (`TaskTable.jsx` line 508):
after trimming, `-`, `undefined`, `null` and the empty string all become
`No status`. -/
def normalizeStatus (raw : String) : String :=
  let s := jsTrim raw
  if s = "-" || s = "undefined" || s = "null" || s = "" then "No status" else s

/-- Person/people filter branch (`TaskTable.jsx` lines 511-528): an
absent, null, empty or whitespace-only value passes iff `No user` is
selected; a value that fails to parse passes no filter; otherwise some
extracted person with a truthy id must be in the selected id set. -/
def personFilterPass (icv : Option ColumnValue) (sel : List String) : Bool :=
  match icv with
  | none => sel.contains "No user"
  | some cv =>
    match cv.value with
    | RawValue.nullv => sel.contains "No user"
    | RawValue.emptyStr => sel.contains "No user"
    | RawValue.wsOnly => sel.contains "No user"
    | RawValue.malformed => false
    | RawValue.json j =>
      (personsOfFilter j).any (fun p =>
        match jsonField p "id" with
        | some idv => jsTruthy idv && sel.contains (jsToString idv)
        | none => false)

/-- Display text of the default filter branch:
`String(icv ? (icv.display_value || icv.text || '') : '').trim()`. -/
def defaultFilterText (icv : Option ColumnValue) : String :=
  match icv with
  | none => jsTrim ""
  | some cv => jsTrim (orFalsyStr cv.display_value (orFalsyStr cv.text ""))

/-- One entry of the `Object.entries(activeFilters).every` loop
(`TaskTable.jsx` lines 490-534): does `item` satisfy the filter entry for
column `cid` with selected values `sel`? -/
def itemPassesFilter (cols : List ColumnMeta) (it : Item) (cid : String)
    (sel : List String) : Bool :=
  if cid = "current_user_filter" then true
  else if sel.isEmpty then true
  else
    match cols.find? (fun c => c.id = cid) with
    | none => true
    | some meta =>
      let icv := it.column_values.find? (fun cv => cv.id = cid)
      if meta.type = "status" then
        sel.contains (normalizeStatus (rawStatusText icv))
      else if meta.type = "person" || meta.type = "people" then
        personFilterPass icv sel
      else
        sel.any (fun v => strContains (defaultFilterText icv) v)

/-- Does the item mention the current user in some person/people column
(`TaskTable.jsx` lines 465-487)?  The column metadata is looked up in the
`allBoardColumns` prop; a blank or unparseable value never matches. -/
def itemMentionsUser (allCols : List ColumnMeta) (uid : String) (it : Item) : Bool :=
  it.column_values.any (fun cv =>
    match allCols.find? (fun c => c.id = cv.id) with
    | some meta =>
      if meta.type = "person" || meta.type = "people" then
        match cv.value with
        | RawValue.json j =>
          (personsOfFilter j).any (fun p =>
            match jsonField p "id" with
            | some idv => jsTruthy idv && jsToString idv = uid
            | none => false)
        | _ => false
      else false
    | none => false)

/-- Look up a key of the `activeFilters` object (modelled as an
association list with unique keys, in insertion order). -/
def filterLookup (filters : List (String × List String)) (cid : String) :
    List String :=
  match filters.find? (fun e => e.1 = cid) with
  | some e => e.2
  | none => []

/-- The `current_user_filter` pre-pass (`TaskTable.jsx` lines 461-488):
active iff the pseudo-entry contains `"true"`; applied only when a
current user id is known. -/
def currentUserPrefilterPass (allCols : List ColumnMeta)
    (filters : List (String × List String)) (uid : Option String)
    (items : List Item) : List Item :=
  let active := (filterLookup filters "current_user_filter").contains "true"
  match uid with
  | some u => if active then items.filter (itemMentionsUser allCols u) else items
  | none => items

/-! ### Sorting -/

/-- Digit run to a number (used by the numeric-aware compare model). -/
def digitsToNat (cs : List Char) : Nat :=
  cs.foldl (fun a c => a * 10 + (c.toNat - 48)) 0

/-- Map `Ordering` to the sign convention of `localeCompare`. -/
def ordToInt : Ordering → Int
  | Ordering.lt => -1
  | Ordering.eq => 0
  | Ordering.gt => 1

/-- Fuelled core of the numeric-aware, caseless string comparison
modelling `localeCompare(undefined, undefined, numeric, base)`: digit
runs compare numerically, other characters compare caselessly.  The fuel
always suffices for the initial call. -/
def lcnCore : Nat → List Char → List Char → Ordering
  | 0, _, _ => Ordering.eq
  | _ + 1, [], [] => Ordering.eq
  | _ + 1, [], _ :: _ => Ordering.lt
  | _ + 1, _ :: _, [] => Ordering.gt
  | fuel + 1, a :: as, b :: bs =>
    if a.isDigit && b.isDigit then
      let ra := (a :: as).takeWhile Char.isDigit
      let rb := (b :: bs).takeWhile Char.isDigit
      let na := digitsToNat ra
      let nb := digitsToNat rb
      if na < nb then Ordering.lt
      else if nb < na then Ordering.gt
      else lcnCore fuel ((a :: as).dropWhile Char.isDigit) ((b :: bs).dropWhile Char.isDigit)
    else
      let la := a.toLower
      let lb := b.toLower
      if la < lb then Ordering.lt
      else if lb < la then Ordering.gt
      else lcnCore fuel as bs

/-- Model of the host `String.prototype.localeCompare` with
`numeric: true, sensitivity: 'base'` as used by the sort comparator. -/
def localeCompareNum (x y : String) : Int :=
  ordToInt (lcnCore (x.toList.length + y.toList.length + 1) x.toList y.toList)

/-- Model of JavaScript `parseFloat(s) || 0`: leading whitespace, an
optional sign, a decimal-digit prefix with an optional fraction part; a
parse producing no digits (NaN) and a parsed 0 both give 0.  (Exponents
are not modelled; the numbers column text the platform produces has
none.) -/
def parseFloatOr0 (s : String) : Rat :=
  let cs := s.toList.dropWhile Char.isWhitespace
  let signAndRest : Rat × List Char :=
    match cs with
    | '-' :: rest => (-1, rest)
    | '+' :: rest => (1, rest)
    | _ => (1, cs)
  let intPart := signAndRest.2.takeWhile Char.isDigit
  let afterInt := signAndRest.2.dropWhile Char.isDigit
  let fracPart :=
    match afterInt with
    | '.' :: r2 => r2.takeWhile Char.isDigit
    | _ => []
  if intPart.isEmpty && fracPart.isEmpty then 0
  else
    signAndRest.1 *
      ((digitsToNat intPart : Rat) + (digitsToNat fracPart : Rat) / ((10 : Rat) ^ fracPart.length))

/-- Is a calendar year a leap year (proleptic Gregorian, as the host Date
uses for ISO date strings)? -/
def isLeapYear (y : Nat) : Bool :=
  (y % 4 = 0 && !(y % 100 = 0)) || y % 400 = 0

/-- Days in a month of a year. -/
def daysInMonth (y m : Nat) : Nat :=
  if m = 1 || m = 3 || m = 5 || m = 7 || m = 8 || m = 10 || m = 12 then 31
  else if m = 4 || m = 6 || m = 9 || m = 11 then 30
  else if isLeapYear y then 29
  else 28

/-- Days from 1970-01-01 to the given civil date (standard civil-calendar
day count; all intermediate values are non-negative for year at least
1). -/
def daysFromCivil (y m d : Nat) : Int :=
  let yy : Int := if m ≤ 2 then (y : Int) - 1 else (y : Int)
  let era : Int := yy / 400
  let yoe : Int := yy - era * 400
  let doy : Int := ((153 * (((m + 9) % 12 : Nat) : Int) + 2) / 5) + (d : Int) - 1
  let doe : Int := yoe * 365 + yoe / 4 - yoe / 100 + doy
  era * 146097 + doe - 719468

/-- Split a character list on the dash separator (kernel-computable model
of splitting the date text on `-`; an empty input yields one empty
group, like the host split). -/
def splitDash : List Char → List (List Char)
  | [] => [[]]
  | c :: rest =>
    if c = '-' then [] :: splitDash rest
    else
      match splitDash rest with
      | [] => [[c]]
      | g :: gs => (c :: g) :: gs

/-- A non-empty all-digits group to a number. -/
def parseDigits (cs : List Char) : Option Nat :=
  if !cs.isEmpty && cs.all Char.isDigit then some (digitsToNat cs)
  else none

/-- Model of `new Date(text).getTime()` for the `YYYY-MM-DD` texts a date
column produces: milliseconds since the epoch, or `none` for an invalid
date (NaN time). -/
def jsDateMs (s : String) : Option Int :=
  match splitDash s.toList with
  | [ys, ms, ds] =>
    match parseDigits ys, parseDigits ms, parseDigits ds with
    | some y, some m, some d =>
      if 1 ≤ m && m ≤ 12 && 1 ≤ d && d ≤ daysInMonth y m then
        some (daysFromCivil y m d * 86400000)
      else none
    | _, _, _ => none
  | _ => none

/-- `columnValue && columnValue.text ? new Date(text) : new Date(0)` of
the date sort branch: the epoch time (0) for a missing column value,
null text or empty text; `none` models an invalid date. -/
def dateSortKey (cv : Option ColumnValue) : Option Int :=
  match cv with
  | some c =>
    match c.text with
    | some t => if t = "" then some 0 else jsDateMs t
    | none => some 0
  | none => some 0

/-- `cv && cv.value ? JSON.parse(cv.value) : null` of the link/person sort
branches: `ok none` is a null parse result, `error` a thrown parse. -/
def cellParsedJson (cv : Option ColumnValue) : Except Unit (Option Json) :=
  match cv with
  | none => Except.ok none
  | some c =>
    match c.value with
    | RawValue.nullv => Except.ok none
    | RawValue.emptyStr => Except.ok none
    | RawValue.wsOnly => Except.error ()
    | RawValue.malformed => Except.error ()
    | RawValue.json j => Except.ok (some j)

/-- A truthy field of an optional parsed value, stringified
(`parsed?.f` inside a `||` chain): `none` when the field is absent or
falsy. -/
def truthyFieldStr (parsed : Option Json) (f : String) : Option String :=
  match parsed with
  | some j =>
    match jsonField j f with
    | some v => if jsTruthy v then some (jsToString v) else none
    | none => none
  | none => none

/-- `parsed?.url || parsed?.text || ''` of the link sort branch. -/
def linkSortString (parsed : Option Json) : String :=
  match truthyFieldStr parsed "url" with
  | some u => u
  | none =>
    match truthyFieldStr parsed "text" with
    | some t => t
    | none => ""

/-- `columnValue?.text || ''` (fallback when a sort-branch parse throws). -/
def textFallback (cv : Option ColumnValue) : String :=
  match cv with
  | some c => orFalsyStr c.text ""
  | none => ""

/-- Person list of the person sort branch
(`parsed && parsed.personsAndTeams ? … .filter(kind person) : []`): unlike
the filter branch there is no bare-array fallback.  (A truthy non-array
`personsAndTeams` field would make the host throw into the shared catch;
that shape never occurs in platform payloads and is modelled as no
persons.) -/
def personsOfSort (parsed : Option Json) : List Json :=
  match parsed with
  | some j =>
    match jsonField j "personsAndTeams" with
    | some (Json.arr xs) => xs.filter isPersonKind
    | _ => []
  | none => []

/-- `persons.length > 0 ? (cachedUsers[String(persons[0].id)]?.name || '') : ''`. -/
def firstPersonName (cached : List (String × UserRec)) (persons : List Json) : String :=
  match persons with
  | [] => ""
  | p :: _ =>
    let key :=
      match jsonField p "id" with
      | some idv => jsToString idv
      | none => "undefined"
    match cached.find? (fun e => e.1 = key) with
    | some e => if e.2.name = "" then "" else e.2.name
    | none => ""

/-- The comparand a sort branch computes for one side. -/
inductive SortVal where
  | strv (x : String)
  | numv (x : Rat)
  | datev (ms : Option Int)

/-- `String(cv ? (cv.display_value || cv.text || '') : '')` (base string
of the non-virtual sort branches; no trimming here). -/
def rawCellString (cv : Option ColumnValue) : String :=
  match cv with
  | some c => orFalsyStr c.display_value (orFalsyStr c.text "")
  | none => ""

/-- The pair of comparands of the sort comparator (`TaskTable.jsx`
lines 549-602): virtual columns compare names/board names; otherwise the
branch for the column type runs, where the person and link branches share
one try/catch, so a throw on either side sends both to the text
fallback. -/
def sortValues (cached : List (String × UserRec)) (meta : ColumnMeta)
    (sortId : String) (a b : Item) : SortVal × SortVal :=
  if sortId = "item_name_column" then
    (SortVal.strv (orFalsyStr (some a.name) ""), SortVal.strv (orFalsyStr (some b.name) ""))
  else if sortId = "board_name_column" then
    (SortVal.strv (orFalsyStr (some a.boardName) ""),
     SortVal.strv (orFalsyStr (some b.boardName) ""))
  else
    let cvA := a.column_values.find? (fun cv => cv.id = sortId)
    let cvB := b.column_values.find? (fun cv => cv.id = sortId)
    if meta.type = "numbers" then
      (SortVal.numv (parseFloatOr0 (rawCellString cvA)),
       SortVal.numv (parseFloatOr0 (rawCellString cvB)))
    else if meta.type = "date" then
      (SortVal.datev (dateSortKey cvA), SortVal.datev (dateSortKey cvB))
    else if meta.type = "link" then
      match cellParsedJson cvA, cellParsedJson cvB with
      | Except.ok pa, Except.ok pb =>
        (SortVal.strv (linkSortString pa), SortVal.strv (linkSortString pb))
      | _, _ => (SortVal.strv (textFallback cvA), SortVal.strv (textFallback cvB))
    else if meta.type = "person" || meta.type = "people" then
      match cellParsedJson cvA, cellParsedJson cvB with
      | Except.ok pa, Except.ok pb =>
        (SortVal.strv (firstPersonName cached (personsOfSort pa)),
         SortVal.strv (firstPersonName cached (personsOfSort pb)))
      | _, _ => (SortVal.strv (textFallback cvA), SortVal.strv (textFallback cvB))
    else
      (SortVal.strv (rawCellString cvA), SortVal.strv (rawCellString cvB))

/-- JavaScript `String(v)` of a comparand (final comparator fallback). -/
def sortValString : SortVal → String
  | SortVal.strv x => x
  | SortVal.numv _ => ""
  | SortVal.datev _ => ""

/-- The comparator of `filteredAndSortedBoardItems` (lines 549-616),
including the ascending/descending flip.  `none` is the NaN produced when
a date comparison involves an invalid date; the ES sort coerces a NaN
comparator result to 0, so the wrapper discharges it to 0. -/
def sortCompareRaw (cached : List (String × UserRec)) (meta : ColumnMeta)
    (sortId sortOrder : String) (a b : Item) : Option Rat :=
  let vals := sortValues cached meta sortId a b
  let comp : Option Rat :=
    if meta.type = "date" then
      match vals.1, vals.2 with
      | SortVal.datev (some x), SortVal.datev (some y) => some (((x - y : Int) : Rat))
      | _, _ => none
    else
      match vals.1, vals.2 with
      | SortVal.strv x, SortVal.strv y => some ((localeCompareNum x y : Int) : Rat)
      | SortVal.numv x, SortVal.numv y => some (x - y)
      | x, y => some ((localeCompareNum (sortValString x) (sortValString y) : Int) : Rat)
  if sortOrder = "asc" then comp else comp.map (fun c => -c)

/-- Effective comparator value: NaN coerced to 0 by the ES sort. -/
def sortCompare (cached : List (String × UserRec)) (meta : ColumnMeta)
    (sortId sortOrder : String) (a b : Item) : Rat :=
  (sortCompareRaw cached meta sortId sortOrder a b).getD 0

/-- The filter pass of `filteredAndSortedBoardItems` (`TaskTable.jsx`
lines 490-534): keep the items satisfying every entry of
`activeFilters`. -/
def applyActiveFilters (colsForTable : List ColumnMeta)
    (activeFilters : List (String × List String)) (items : List Item) : List Item :=
  items.filter (fun it =>
    activeFilters.all (fun e => itemPassesFilter colsForTable it e.1 e.2))

/-- The sort tail of `filteredAndSortedBoardItems` (lines 537-618): with a
sort column carrying a truthy sort state (the empty string models a falsy
one) whose metadata exists in `columnsForTable`, a stable sort by the
comparator; otherwise the filtered items in input order. -/
def applySorting (colsForTable : List ColumnMeta) (cached : List (String × UserRec))
    (sorting : List (String × String)) (finalFiltered : List Item) : List Item :=
  match sorting.head? with
  | none => finalFiltered
  | some (cid, ord) =>
    if ord = "" then finalFiltered
    else
      match colsForTable.find? (fun c => c.id = cid) with
      | none => finalFiltered
      | some meta =>
        finalFiltered.insertionSort (fun a b => sortCompare cached meta cid ord a b ≤ 0)

/-- `filteredAndSortedBoardItems` (`TaskTable.jsx` lines 454-619): empty
guard, current-user pre-pass, per-entry filter conjunction, then the
stable sort (`Array.prototype.sort` is stable per ES2019; the model uses
a stable insertion sort over the comparator). -/
def filteredAndSortedBoardItems (allCols colsForTable : List ColumnMeta)
    (cached : List (String × UserRec)) (uid : Option String)
    (activeFilters : List (String × List String))
    (sorting : List (String × String)) (boardItems : List Item) : List Item :=
  if boardItems.isEmpty then []
  else
    applySorting colsForTable cached sorting
      (applyActiveFilters colsForTable activeFilters
        (currentUserPrefilterPass allCols activeFilters uid boardItems))

/-- `handleFilterChange` (`TaskTable.jsx` lines 235-250): check or uncheck
one value of one column filter; the key keeps its position (or is
appended when new), and unchecking filters the value out of the list —
an emptied list stays in the map. -/
def handleFilterChange (prev : List (String × List String)) (cid v : String)
    (isChecked : Bool) : List (String × List String) :=
  let cur := filterLookup prev cid
  let updated := if isChecked then cur ++ [v] else cur.filter (fun x => !(x = v))
  if prev.any (fun e => e.1 = cid) then
    prev.map (fun e => if e.1 = cid then (e.1, updated) else e)
  else prev ++ [(cid, updated)]

/-! ## Settings store (`App.jsx` lines 158-250)

The stored value under the `appSettings` key is modelled by its parse
classification rather than by raw characters: `JSON.stringify` is
injective on the settings objects this system writes, so the
stringify-then-parse composite is the identity embedded in the
`jsonObj` constructor. -/

/-- The fields of a parsed settings object that `loadSettings` inspects
(each `none` when the property is absent; `selectedBoardIds` and
`selectedColumnIds` are arrays — always truthy in JavaScript — whenever
present). -/
structure ParsedSettings where
  selectedBoardIds : Option (List String) := none
  selectedColumnIds : Option (List String) := none
  isDialogOpen : Option Bool := none
  isPopoverOpen : Option Bool := none
  isSidebarOpen : Option Bool := none
deriving DecidableEq

/-- Classification of a string stored under the settings key. -/
inductive StoredStr where
  | empty
  | jsonObj (p : ParsedSettings)
  | jsonNull
  | jsonOther
  | notJson (s : String)
deriving DecidableEq

/-- The value `monday.storage.instance.getItem` hands back under
`response.data.value`: absent, a string, or some non-string value. -/
inductive StoredVal where
  | notAString
  | strVal (s : StoredStr)
deriving DecidableEq

/-- Observable outcome of the `loadSettings` effect: the three state
fields it may set (from their defaults `[]`, `[]`, `false`), whether an
app-level error was raised, and whether the stored entry was deleted. -/
structure LoadResult where
  selectedBoardIds : List String := []
  selectedColumnIds : List String := []
  isSidebarOpen : Bool := false
  appError : Option String := none
  removedKey : Bool := false
deriving DecidableEq

/-- `loadSettings` (`App.jsx` lines 159-224).  A missing or empty (falsy)
value leaves the defaults; a non-string value and a string that fails
`JSON.parse` (including JSON `null`, whose property access throws inside
the same inner try) clear the stored entry and leave the defaults, with
no app error; a parsed object restores each present field, the sidebar
flag preferring `isDialogOpen`, then `isPopoverOpen`, then
`isSidebarOpen`; parsed non-object values have no such properties and
leave the defaults.  (`stored` is the value a resolved `getItem` handed
back; a rejected storage call — the outer catch, which raises an app
error — is outside this model and outside the claims.) -/
def loadSettings (stored : Option StoredVal) : LoadResult :=
  match stored with
  | none => {}
  | some StoredVal.notAString => { removedKey := true }
  | some (StoredVal.strVal sc) =>
    match sc with
    | StoredStr.empty => {}
    | StoredStr.notJson _ => { removedKey := true }
    | StoredStr.jsonNull => { removedKey := true }
    | StoredStr.jsonOther => {}
    | StoredStr.jsonObj p =>
      { selectedBoardIds := p.selectedBoardIds.getD []
        selectedColumnIds := p.selectedColumnIds.getD []
        isSidebarOpen :=
          match p.isDialogOpen with
          | some b => b
          | none =>
            match p.isPopoverOpen with
            | some b => b
            | none =>
              match p.isSidebarOpen with
              | some b => b
              | none => false }

/-- `saveSettingsAutomatically` (`App.jsx` lines 229-250): the stored
string is `JSON.stringify({selectedBoardIds, selectedColumnIds,
isSidebarOpen})` — a JSON object carrying exactly those three
properties. -/
def saveSettingsAutomatically (selB selC : List String) (sidebar : Bool) : StoredVal :=
  StoredVal.strVal (StoredStr.jsonObj
    { selectedBoardIds := some selB
      selectedColumnIds := some selC
      isSidebarOpen := some sidebar })

/-! ## Concrete sample data used by counterexamples and witnesses -/

/-- A concurrency-limit error (transient for the `retry` classifier). -/
def concErr : MError := ⟨"Concurrency limit exceeded", none, none⟩

/-- A permission error (fatal for both classifiers). -/
def permErr : MError := ⟨"User unauthorized to perform action", none, none⟩

/-- A structured rate-limit response error message. -/
def rateMsg : String := "Rate limit exceeded for complexity"

/-- Column with id `c1` as defined on board `b1`. -/
def colFromB1 : RawColumn := ⟨"c1", "Status v1", "status", none⟩

/-- Column with the same id `c1` as defined on board `b2`, with different
metadata. -/
def colFromB2 : RawColumn := ⟨"c1", "Status v2", "status", some "x"⟩

/-- Board data where two selected boards contribute the same column id. -/
def twoBoardsData : List BoardEntry :=
  [⟨"b1", "Board One", [colFromB1]⟩, ⟨"b2", "Board Two", [colFromB2]⟩]

/-- Poll-guard state with a background refresh in flight (`isPolling`),
no foreground load, and non-empty selections. -/
def pollingBusyState : PollFlags :=
  ⟨false, false, false, true, ["b1"], ["c1"]⟩

/-- An item displayed before a refresh. -/
def demoOldItem : Item := ⟨"i0", "Old task", "b0", "Board Zero", []⟩

/-- An item fetched for board `b1` during the failing refresh. -/
def demoRawItem : RawItem := ⟨"i1", "Task One", []⟩

/-- Component state before the failing refresh: one displayed item. -/
def demoFetchState : FetchState := ⟨[], [demoOldItem], none, none⟩

/-- Columns-query response for the failing-refresh scenario. -/
def demoColsResponse : List BoardCols :=
  [⟨"b1", "Board One", some [colFromB1]⟩, ⟨"b2", "Board Two", some [colFromB2]⟩]

/-- Items oracle for the failing-refresh scenario: board `b1` succeeds,
board `b2` rejects after its retries are exhausted. -/
def demoItemsRes : String → Except MError (Option (List RawItem)) :=
  fun bid => if bid = "b1" then Except.ok (some [demoRawItem]) else Except.error permErr

/-- Metadata of a status column, as found in `columnsForTable`. -/
def statusMeta : ColumnMeta := ⟨"statusCol", "Status", "status"⟩

/-- An item whose status column text is the empty string. -/
def emptyStatusItem : Item :=
  ⟨"i2", "Untitled", "b1", "Board One", [⟨"statusCol", some "", RawValue.nullv, none⟩]⟩

/-- An item whose status column text is `Done`. -/
def doneStatusItem : Item :=
  ⟨"i3", "Ship it", "b1", "Board One", [⟨"statusCol", some "Done", RawValue.nullv, none⟩]⟩

/-- Metadata of a date column. -/
def dateMeta : ColumnMeta := ⟨"dateCol", "Due", "date"⟩

/-- An item with a parseable pre-epoch date. -/
def itemDate1960 : Item :=
  ⟨"d1", "Old deadline", "b1", "Board One",
   [⟨"dateCol", some "1960-01-01", RawValue.nullv, none⟩]⟩

/-- An item with no date text (absent value). -/
def itemDateAbsent : Item :=
  ⟨"d2", "No deadline", "b1", "Board One", [⟨"dateCol", none, RawValue.nullv, none⟩]⟩

/-- An item with unparseable date text. -/
def itemDateBad : Item :=
  ⟨"d3", "Bad deadline", "b1", "Board One",
   [⟨"dateCol", some "not a date", RawValue.nullv, none⟩]⟩

/-- An item with a parseable modern date. -/
def itemDate2020 : Item :=
  ⟨"d4", "New deadline", "b1", "Board One",
   [⟨"dateCol", some "2020-01-01", RawValue.nullv, none⟩]⟩

end MWV

namespace MWV

/-! ## Helper lemmas -/

/-- Unfolding of `retry` on a first-attempt rejection with no budget. -/
theorem retry_err_zero (fn : Nat → Except MError α) (d f : Nat) (e : MError)
    (h : fn 0 = Except.error e) : retry fn 0 d f = ⟨Except.error e, 1, []⟩ := by
  unfold retry
  rw [h]

/-- Unfolding of `retry` on a transient first-attempt rejection with
budget remaining. -/
theorem retry_err_step (fn : Nat → Except MError α) (r d f : Nat) (e : MError)
    (h : fn 0 = Except.error e) (ht : isTransientRetry e = true) :
    retry fn (r + 1) d f =
      ⟨(retry (fun i => fn (i + 1)) r (d * f) f).result,
       (retry (fun i => fn (i + 1)) r (d * f) f).attempts + 1,
       d :: (retry (fun i => fn (i + 1)) r (d * f) f).sleeps⟩ := by
  conv_lhs => rw [retry]
  rw [h]
  simp only [ht, if_true]

/-- Unfolding of `retry` on a fatal first-attempt rejection. -/
theorem retry_err_fatal (fn : Nat → Except MError α) (r d f : Nat) (e : MError)
    (h : fn 0 = Except.error e) (ht : isTransientRetry e = false) :
    retry fn r d f = ⟨Except.error e, 1, []⟩ := by
  cases r with
  | zero => exact retry_err_zero fn d f e h
  | succ n =>
    unfold retry
    rw [h]
    simp [ht]

/-- Every `retry` run performs at least one attempt. -/
theorem retry_attempts_pos (fn : Nat → Except MError α) (r d f : Nat) :
    1 ≤ (retry fn r d f).attempts := by
  unfold retry
  cases h : fn 0 with
  | ok a => simp
  | error e =>
    cases r with
    | zero => simp
    | succ n =>
      by_cases ht : isTransientRetry e
      · simp [ht]
      · simp [ht]

/-- The doubling-delay schedule, unfolded one step. -/
theorem delays_unfold (n d f : Nat) :
    (List.range (n + 1)).map (fun i => d * f ^ i) =
      d :: (List.range n).map (fun i => d * f * f ^ i) := by
  rw [List.range_succ_eq_map, List.map_cons, List.map_map]
  have h : ∀ i : Nat, d * f ^ (i + 1) = d * f * f ^ i := by
    intro i
    rw [pow_succ]
    ring
  simp [Function.comp, h]

/-- Always-transient runs of `retry` use the whole budget: with attempts
indexed by `es`, the run makes `r + 1` attempts, sleeps the
geometrically growing delays, and surfaces the last error. -/
theorem retry_exhausts (α : Type) (es : Nat → MError) (r : Nat) :
    ∀ d f : Nat, (∀ i, isTransientRetry (es i) = true) →
      retry (fun i => (Except.error (es i) : Except MError α)) r d f =
        ⟨Except.error (es r), r + 1, (List.range r).map (fun i => d * f ^ i)⟩ := by
  induction r generalizing es with
  | zero =>
    intro d f h
    rw [retry_err_zero _ _ _ (es 0) rfl]
    simp
  | succ n ih =>
    intro d f h
    rw [retry_err_step _ _ _ _ (es 0) rfl (h 0)]
    have hfn : (fun i => (fun j => (Except.error (es j) : Except MError α)) (i + 1)) =
        fun i => (Except.error (es (i + 1)) : Except MError α) := rfl
    rw [hfn, ih (fun i => es (i + 1)) (d * f) f (fun i => h (i + 1))]
    rw [delays_unfold]

/-- Unfolding of `queryMonday` on a structured-errors response carrying a
rate-limit marker (in some message, or in joined form on the caught
path), with budget remaining. -/
theorem queryMonday_errs_step (api : Nat → ApiOutcome α) (r d : Nat)
    (errs : List String) (dat : α)
    (h : api 0 = ApiOutcome.response (some errs) dat)
    (hrl : (errs.any isRateLimitMsg || strContains (joinMsgs errs) "Rate limit passed") = true) :
    queryMonday api (r + 1) d =
      ⟨(queryMonday (fun i => api (i + 1)) r (d * 2)).result,
       (queryMonday (fun i => api (i + 1)) r (d * 2)).attempts + 1,
       d :: (queryMonday (fun i => api (i + 1)) r (d * 2)).sleeps⟩ := by
  conv_lhs => rw [queryMonday]
  rw [h]
  simp only [hrl, if_true]

/-- Unfolding of `queryMonday` on a structured-errors response with no
budget left: the joined messages are thrown as a plain error. -/
theorem queryMonday_errs_zero (api : Nat → ApiOutcome α) (d : Nat)
    (errs : List String) (dat : α)
    (h : api 0 = ApiOutcome.response (some errs) dat) :
    queryMonday api 0 d = ⟨Except.error (plainError (joinMsgs errs)), 1, []⟩ := by
  conv_lhs => rw [queryMonday]
  rw [h]

/-- Unfolding of `queryMonday` on a structured-errors response carrying no
rate-limit marker anywhere: one attempt, the joined messages thrown. -/
theorem queryMonday_errs_fatal (api : Nat → ApiOutcome α) (r d : Nat)
    (errs : List String) (dat : α)
    (h : api 0 = ApiOutcome.response (some errs) dat)
    (hrl : (errs.any isRateLimitMsg || strContains (joinMsgs errs) "Rate limit passed") = false) :
    queryMonday api r d = ⟨Except.error (plainError (joinMsgs errs)), 1, []⟩ := by
  cases r with
  | zero => exact queryMonday_errs_zero api d errs dat h
  | succ n =>
    conv_lhs => rw [queryMonday]
    rw [h]
    simp only [hrl, Bool.false_eq_true, if_false]

/-- Unfolding of `queryMonday` on a rejected call whose message lacks the
caught-path rate-limit marker: one attempt, the error rethrown. -/
theorem queryMonday_reject_fatal (api : Nat → ApiOutcome α) (r d : Nat) (e : MError)
    (h : api 0 = ApiOutcome.reject e)
    (hm : strContains e.message "Rate limit passed" = false) :
    queryMonday api r d = ⟨Except.error e, 1, []⟩ := by
  cases r with
  | zero =>
    conv_lhs => rw [queryMonday]
    rw [h]
  | succ n =>
    conv_lhs => rw [queryMonday]
    rw [h]
    simp only [hm, Bool.false_eq_true, if_false]

/-- Unfolding of `queryMonday` on a rejected call whose message carries
the caught-path marker, with budget remaining. -/
theorem queryMonday_reject_step (api : Nat → ApiOutcome α) (r d : Nat) (e : MError)
    (h : api 0 = ApiOutcome.reject e)
    (hm : strContains e.message "Rate limit passed" = true) :
    queryMonday api (r + 1) d =
      ⟨(queryMonday (fun i => api (i + 1)) r (d * 2)).result,
       (queryMonday (fun i => api (i + 1)) r (d * 2)).attempts + 1,
       d :: (queryMonday (fun i => api (i + 1)) r (d * 2)).sleeps⟩ := by
  conv_lhs => rw [queryMonday]
  rw [h]
  simp only [hm, if_true]

/-- Every `queryMonday` run performs at least one attempt. -/
theorem queryMonday_attempts_pos (api : Nat → ApiOutcome α) (r d : Nat) :
    1 ≤ (queryMonday api r d).attempts := by
  rw [queryMonday]
  cases h : api 0 with
  | response errors dat =>
    cases errors with
    | none => simp
    | some errs =>
      cases r with
      | zero => simp
      | succ n =>
        by_cases hc : (errs.any isRateLimitMsg || strContains (joinMsgs errs) "Rate limit passed")
        · simp [hc]
        · simp [hc]
  | reject e =>
    cases r with
    | zero => simp
    | succ n =>
      by_cases hm : strContains e.message "Rate limit passed"
      · simp [hm]
      · simp [hm]

/-- Always-rate-limited structured responses exhaust the `queryMonday`
budget: `r + 1` attempts, doubling sleeps, and the joined messages of the
last response thrown as a plain error. -/
theorem queryMonday_exhausts (α : Type) (errsSeq : Nat → List String) (dat : α) (r : Nat) :
    ∀ d : Nat, (∀ i, (errsSeq i).any isRateLimitMsg = true) →
      queryMonday (fun i => ApiOutcome.response (some (errsSeq i)) dat) r d =
        ⟨Except.error (plainError (joinMsgs (errsSeq r))), r + 1,
         (List.range r).map (fun i => d * 2 ^ i)⟩ := by
  induction r generalizing errsSeq with
  | zero =>
    intro d h
    rw [queryMonday_errs_zero _ _ (errsSeq 0) dat rfl]
    simp
  | succ n ih =>
    intro d h
    rw [queryMonday_errs_step _ _ _ (errsSeq 0) dat rfl (by simp [h 0])]
    have hfn : (fun i => (fun j => ApiOutcome.response (some (errsSeq j)) dat) (i + 1)) =
        fun i => ApiOutcome.response (some (errsSeq (i + 1))) dat := rfl
    rw [hfn, ih (fun i => errsSeq (i + 1)) (d * 2) (fun i => h (i + 1))]
    rw [delays_unfold]

/-! ## Claim C1 -/

/-- Claim C1: an operation whose attempts all fail with a transient
(rate-limit class) error is attempted exactly `retries + 1` times by the
retrying executor, with the delay doubling between consecutive attempts
(`delay * factor ^ i` with the call-site factor 2), after which the run
rejects with the last attempt's error — the rejection the spec labels
`ExhaustedRetries`; an operation whose first attempt fails with a
non-transient error is attempted exactly once and the error is rethrown
unchanged.  Stated for the `retry` executor of `App.jsx`. -/
theorem claim1_retry_budget (α : Type) :
    (∀ (es : Nat → MError) (r d f : Nat), (∀ i, isTransientRetry (es i) = true) →
      retry (fun i => (Except.error (es i) : Except MError α)) r d f =
        ⟨Except.error (es r), r + 1, (List.range r).map (fun i => d * f ^ i)⟩) ∧
    (∀ (fn : Nat → Except MError α) (e : MError) (r d f : Nat),
      fn 0 = Except.error e → isTransientRetry e = false →
      retry fn r d f = ⟨Except.error e, 1, []⟩) ∧
    (∀ (errsSeq : Nat → List String) (dat : α) (r d : Nat),
      (∀ i, (errsSeq i).any isRateLimitMsg = true) →
      queryMonday (fun i => ApiOutcome.response (some (errsSeq i)) dat) r d =
        ⟨Except.error (plainError (joinMsgs (errsSeq r))), r + 1,
         (List.range r).map (fun i => d * 2 ^ i)⟩) ∧
    (∀ (api : Nat → ApiOutcome α) (e : MError) (r d : Nat),
      api 0 = ApiOutcome.reject e →
      strContains e.message "Rate limit passed" = false →
      queryMonday api r d = ⟨Except.error e, 1, []⟩) := by
  refine ⟨?_, ?_, ?_, ?_⟩
  · intro es r d f h
    exact retry_exhausts α es r d f h
  · intro fn e r d f h ht
    exact retry_err_fatal fn r d f e h ht
  · intro errsSeq dat r d h
    exact queryMonday_exhausts α errsSeq dat r d h
  · intro api e r d h hm
    exact queryMonday_reject_fatal api r d e h hm

/-- Witness for C1: with the `App.jsx` call-site budget (5 retries, base
delay 2000ms, factor 2), an always-concurrency-limited operation runs 6
attempts with sleeps 2000, 4000, 8000, 16000, 32000 and surfaces the
error, and a permission error runs once; with the `useMondayAPI.jsx`
defaults (3 retries, base delay 500ms), always-rate-limited structured
responses run 4 attempts with sleeps 500, 1000, 2000, and a rejected
permission error runs once. -/
theorem claim1_retry_budget_witness :
    retry (fun _ => (Except.error concErr : Except MError Nat)) 5 2000 2 =
      ⟨Except.error concErr, 6, [2000, 4000, 8000, 16000, 32000]⟩ ∧
    retry (fun _ => (Except.error permErr : Except MError Nat)) 5 2000 2 =
      ⟨Except.error permErr, 1, []⟩ ∧
    queryMonday (fun _ => ApiOutcome.response (some [rateMsg]) (0 : Nat)) 3 500 =
      ⟨Except.error (plainError rateMsg), 4, [500, 1000, 2000]⟩ ∧
    queryMonday (fun _ => (ApiOutcome.reject permErr : ApiOutcome Nat)) 3 500 =
      ⟨Except.error permErr, 1, []⟩ := by
  have h0 : isTransientRetry concErr = true := by decide
  have h1 : ([rateMsg].any isRateLimitMsg) = true := by decide
  refine ⟨?_, ?_, ?_, ?_⟩
  · have h := (claim1_retry_budget Nat).1 (fun _ => concErr) 5 2000 2 (fun _ => h0)
    rw [h]
    rfl
  · exact (claim1_retry_budget Nat).2.1 (fun _ => Except.error permErr) permErr 5 2000 2 rfl
      (by decide)
  · have h := (claim1_retry_budget Nat).2.2.1 (fun _ => [rateMsg]) 0 3 500 (fun _ => h1)
    rw [h]
    rfl
  · exact (claim1_retry_budget Nat).2.2.2 (fun _ => ApiOutcome.reject permErr) permErr 3 500 rfl
      (by decide)

/-! ## Claim C4 -/

/-- Claim C4: the executor retries an error if and only if the classifier
marks it transient.  For the `retry` layer the classifier
(`isTransientRetry`) fires exactly on a concurrency-limit rejection, a
transient upstream validation error (the GraphQL-validation message or
the `FIELD_LIMIT_EXCEEDED` coalescing code), or an HTTP 429; every other
error is fatal and the first attempt is the only one.  A response that
carries a structured error list despite HTTP success never resolves: it
is either retried or rejected as a plain error holding the joined
messages, exactly like a thrown transport error, and the retry decision
applies the rate-limiting message markers — the same classification the
spec assigns to rate-limit errors. -/
theorem claim4_transient_classifier (α : Type) :
    (∀ (fn : Nat → Except MError α) (e : MError) (r d f : Nat),
      fn 0 = Except.error e →
      (2 ≤ (retry fn (r + 1) d f).attempts ↔ isTransientRetry e = true)) ∧
    (∀ (api : Nat → ApiOutcome α) (errs : List String) (dat : α) (r d : Nat),
      api 0 = ApiOutcome.response (some errs) dat →
      2 ≤ (queryMonday api r d).attempts ∨
        queryMonday api r d = ⟨Except.error (plainError (joinMsgs errs)), 1, []⟩) ∧
    (∀ (api : Nat → ApiOutcome α) (errs : List String) (dat : α) (r d : Nat),
      api 0 = ApiOutcome.response (some errs) dat →
      (2 ≤ (queryMonday api (r + 1) d).attempts ↔
        (errs.any isRateLimitMsg || strContains (joinMsgs errs) "Rate limit passed") = true)) := by
  refine ⟨?_, ?_, ?_⟩
  · intro fn e r d f h
    by_cases ht : isTransientRetry e
    · rw [retry_err_step fn r d f e h ht]
      have hp := retry_attempts_pos (fun i => fn (i + 1)) r (d * f) f
      constructor
      · intro _
        exact ht
      · intro _
        show 2 ≤ (retry (fun i => fn (i + 1)) r (d * f) f).attempts + 1
        omega
    · rw [retry_err_fatal fn (r + 1) d f e h (by simpa using ht)]
      simp [ht]
  · intro api errs dat r d h
    cases r with
    | zero => exact Or.inr (queryMonday_errs_zero api d errs dat h)
    | succ n =>
      by_cases hc : (errs.any isRateLimitMsg || strContains (joinMsgs errs) "Rate limit passed")
      · left
        rw [queryMonday_errs_step api n d errs dat h hc]
        have hp := queryMonday_attempts_pos (fun i => api (i + 1)) n (d * 2)
        show 2 ≤ (queryMonday (fun i => api (i + 1)) n (d * 2)).attempts + 1
        omega
      · exact Or.inr (queryMonday_errs_fatal api (n + 1) d errs dat h (by simpa using hc))
  · intro api errs dat r d h
    by_cases hc : (errs.any isRateLimitMsg || strContains (joinMsgs errs) "Rate limit passed")
    · rw [queryMonday_errs_step api r d errs dat h hc]
      have hp := queryMonday_attempts_pos (fun i => api (i + 1)) r (d * 2)
      constructor
      · intro _
        exact hc
      · intro _
        show 2 ≤ (queryMonday (fun i => api (i + 1)) r (d * 2)).attempts + 1
        omega
    · rw [queryMonday_errs_fatal api (r + 1) d errs dat h (by simpa using hc)]
      simp [hc]

/-- Witness for C4: a permission error is not retried by the `retry`
executor (its single attempt stands), while a concurrency error is; a
structured-errors response with a non-rate-limit message rejects with the
joined message after one attempt; a structured rate-limit response is
retried. -/
theorem claim4_transient_classifier_witness :
    (2 ≤ (retry (fun _ => (Except.error permErr : Except MError Nat)) 5 2000 2).attempts ↔
      isTransientRetry permErr = true) ∧
    (2 ≤ (retry (fun _ => (Except.error concErr : Except MError Nat)) 5 2000 2).attempts ↔
      isTransientRetry concErr = true) ∧
    (2 ≤ (queryMonday (fun _ => ApiOutcome.response (some ["Parse error on bad query"]) (0 : Nat))
        3 500).attempts ∨
      queryMonday (fun _ => ApiOutcome.response (some ["Parse error on bad query"]) (0 : Nat))
        3 500 =
        ⟨Except.error (plainError (joinMsgs ["Parse error on bad query"])), 1, []⟩) ∧
    (2 ≤ (queryMonday (fun _ => ApiOutcome.response (some [rateMsg]) (0 : Nat)) 3 500).attempts ↔
      (([rateMsg].any isRateLimitMsg) ||
        strContains (joinMsgs [rateMsg]) "Rate limit passed") = true) := by
  refine ⟨?_, ?_, ?_, ?_⟩
  · exact (claim4_transient_classifier Nat).1 (fun _ => Except.error permErr) permErr 4 2000 2 rfl
  · exact (claim4_transient_classifier Nat).1 (fun _ => Except.error concErr) concErr 4 2000 2 rfl
  · exact (claim4_transient_classifier Nat).2.1
      (fun _ => ApiOutcome.response (some ["Parse error on bad query"]) 0)
      ["Parse error on bad query"] 0 3 500 rfl
  · exact (claim4_transient_classifier Nat).2.2
      (fun _ => ApiOutcome.response (some [rateMsg]) 0) [rateMsg] 0 2 500 rfl

/-! ## Claim C3 -/

/-- `find?` by id commutes with the dedup-insert of the unified column
map: the first column with a given id in the traversal stream wins. -/
theorem insertColumns_find (cid : String) :
    ∀ (cols acc : List RawColumn),
      (insertColumns acc cols).find? (fun c => c.id = cid) =
        (acc ++ cols).find? (fun c => c.id = cid) := by
  intro cols
  induction cols with
  | nil =>
    intro acc
    simp [insertColumns]
  | cons c cs ih =>
    intro acc
    have hstep : insertColumns acc (c :: cs) =
        insertColumns (if acc.any (fun x => x.id = c.id) then acc else acc ++ [c]) cs := by
      simp [insertColumns, List.foldl_cons]
    rw [hstep, ih]
    by_cases ha : acc.any (fun x => x.id = c.id)
    · rw [if_pos ha]
      rw [List.find?_append, List.find?_append]
      cases hacc : acc.find? (fun c => c.id = cid) with
      | some x => simp
      | none =>
        have hc : ¬(c.id = cid) := by
          intro hcid
          rcases List.any_eq_true.mp ha with ⟨x, hx, hxid⟩
          have hxid' : x.id = c.id := by simpa using hxid
          have := List.find?_eq_none.mp hacc x hx
          simp [hxid', hcid] at this
        simp [List.find?_cons, hc]
    · rw [if_neg ha]
      rw [List.append_cons, List.append_assoc]
      simp

/-- The unified-map fold, generalized over its accumulator, finds by id
exactly what a scan of the full column stream finds. -/
theorem allAvailable_aux (abd : List BoardEntry) (cid : String) :
    ∀ (selB : List String) (acc : List RawColumn),
      ((selB.foldl (fun acc bid =>
        match abd.find? (fun b => b.id = bid) with
        | some bd => insertColumns acc bd.columns
        | none => acc) acc).find? (fun c => c.id = cid)) =
      ((acc ++ columnStream selB abd).find? (fun c => c.id = cid)) := by
  intro selB
  induction selB with
  | nil =>
    intro acc
    simp [columnStream]
  | cons bid rest ih =>
    intro acc
    rw [List.foldl_cons]
    cases hb : abd.find? (fun b => b.id = bid) with
    | some bd =>
      rw [ih]
      have hstream : columnStream (bid :: rest) abd = bd.columns ++ columnStream rest abd := by
        simp [columnStream, hb]
      rw [hstream]
      show List.find? (fun c => decide (c.id = cid))
          (insertColumns acc bd.columns ++ columnStream rest abd) =
        List.find? (fun c => decide (c.id = cid)) (acc ++ (bd.columns ++ columnStream rest abd))
      rw [List.find?_append, insertColumns_find]
      simp [List.find?_append, Option.or_assoc]
    | none =>
      rw [ih]
      have hstream : columnStream (bid :: rest) abd = columnStream rest abd := by
        simp [columnStream, hb]
      rw [hstream]

/-- Counterexample to claim C3 as stated: boards `b1` and `b2` both
contribute a column with id `c1` (with different metadata), yet the
unified map keeps the metadata of `b1` — the first-seen board — not the
last-seen `b2` version. -/
theorem claim3_counterexample :
    (allAvailableColumnsForSelectedBoards ["b1", "b2"] twoBoardsData) = [colFromB1] ∧
    colFromB1 ≠ colFromB2 ∧
    (allAvailableColumnsForSelectedBoards ["b1", "b2"] twoBoardsData).find?
        (fun c => c.id = "c1") ≠ some colFromB2 := by
  refine ⟨by decide, by decide, by decide⟩

/-- Claim C3, amended: when two selected boards contribute columns with
the same column id, the merged map keeps the FIRST-seen column's metadata
(first-seen-wins, in board iteration order): its entry for any id equals
the first column carrying that id in the concatenated column stream of
the selected boards. -/
theorem claim3_amended (selB : List String) (abd : List BoardEntry) (cid : String) :
    (allAvailableColumnsForSelectedBoards selB abd).find? (fun c => c.id = cid) =
      (columnStream selB abd).find? (fun c => c.id = cid) := by
  have h := allAvailable_aux abd cid selB []
  simpa [allAvailableColumnsForSelectedBoards] using h

/-! ## Claim C2 -/

/-- The `catch` clause never touches the item list. -/
theorem fetchCatch_boardItems (st : FetchState) (e : MError) :
    (fetchCatch st e).boardItems = st.boardItems := by
  unfold fetchCatch
  by_cases hc : strContains e.message "columns"
  · simp [hc]
  · simp [hc]

/-- The `catch` clause records the failure in one of the two error
slots. -/
theorem fetchCatch_sets_error (st : FetchState) (e : MError) :
    (fetchCatch st e).columnsError ≠ none ∨ (fetchCatch st e).itemsError ≠ none := by
  unfold fetchCatch
  by_cases hc : strContains e.message "columns"
  · left
    simp [hc]
  · right
    simp [hc]

/-- The per-board item loop fails fast: with columns selected, if every
board before `b` resolves and `b` rejects, the loop rejects with exactly
the error of `b`, whatever was already fetched. -/
theorem fetchItems_err (itemsRes : String → Except MError (Option (List RawItem)))
    (nabd : List BoardEntry) (selC : List String) (b : String) (post : List String)
    (e : MError) (hsel : selC ≠ []) (hb : itemsRes b = Except.error e) :
    ∀ pre : List String, (∀ b' ∈ pre, ∃ v, itemsRes b' = Except.ok v) →
      fetchItemsForBoards itemsRes nabd selC (pre ++ b :: post) = Except.error e := by
  intro pre
  induction pre with
  | nil =>
    intro _
    rw [List.nil_append]
    unfold fetchItemsForBoards
    rw [if_neg hsel, hb]
  | cons p ps ih =>
    intro hpre
    rcases hpre p (by simp) with ⟨v, hv⟩
    rw [List.cons_append]
    unfold fetchItemsForBoards
    rw [if_neg hsel, hv]
    have hrest := ih (fun b' hb' => hpre b' (by simp [hb']))
    cases v with
    | none => exact hrest
    | some raws =>
      rw [hrest]

/-- Claim C2: during a refresh over a non-empty board selection whose
columns call succeeded, if the item fetch of some selected board `b`
rejects (after its retries were exhausted) while every board before it
resolved, then the whole refresh fails — one of the two error slots is
set — and the displayed item list is left exactly as it was: items
already fetched from earlier boards are discarded, and no partial
overwrite of `boardItems` occurs. -/
theorem claim2_failfast_no_partial (st : FetchState) (selC pre post : List String)
    (b : String) (obs : Option (List BoardCols)) (e : MError)
    (itemsRes : String → Except MError (Option (List RawItem)))
    (hsel : selC ≠ [])
    (hpre : ∀ b' ∈ pre, ∃ v, itemsRes b' = Except.ok v)
    (hb : itemsRes b = Except.error e) :
    (fetchBoardData st (pre ++ b :: post) selC (Except.ok obs) itemsRes).boardItems
        = st.boardItems ∧
    ((fetchBoardData st (pre ++ b :: post) selC (Except.ok obs) itemsRes).columnsError ≠ none ∨
     (fetchBoardData st (pre ++ b :: post) selC (Except.ok obs) itemsRes).itemsError ≠ none) := by
  have hne : pre ++ b :: post ≠ [] := by simp
  have hloop := fetchItems_err itemsRes (buildBoardsData (pre ++ b :: post) obs) selC b post e
    hsel hb pre hpre
  have heq : fetchBoardData st (pre ++ b :: post) selC (Except.ok obs) itemsRes =
      fetchCatch
        { st with
            allBoardsData := buildBoardsData (pre ++ b :: post) obs
            columnsError := none
            itemsError := none } e := by
    unfold fetchBoardData
    rw [if_neg hne]
    show (match fetchItemsForBoards itemsRes (buildBoardsData (pre ++ b :: post) obs) selC
        (pre ++ b :: post) with
      | Except.error e =>
        fetchCatch
          { st with
              allBoardsData := buildBoardsData (pre ++ b :: post) obs
              columnsError := none
              itemsError := none } e
      | Except.ok items =>
        { st with
            allBoardsData := buildBoardsData (pre ++ b :: post) obs
            boardItems := items
            columnsError := none
            itemsError := none }) = _
    rw [hloop]
  rw [heq]
  exact ⟨fetchCatch_boardItems _ e, fetchCatch_sets_error _ e⟩

/-- Witness for C2: the spec scenario — boards `b1`, `b2` with a selected
column, `b1` resolving one item and `b2` rejecting — leaves the
previously displayed item list unchanged and sets an error slot. -/
theorem claim2_failfast_no_partial_witness :
    (fetchBoardData demoFetchState ["b1", "b2"] ["c1"] (Except.ok (some demoColsResponse))
        demoItemsRes).boardItems = [demoOldItem] ∧
    ((fetchBoardData demoFetchState ["b1", "b2"] ["c1"] (Except.ok (some demoColsResponse))
        demoItemsRes).columnsError ≠ none ∨
     (fetchBoardData demoFetchState ["b1", "b2"] ["c1"] (Except.ok (some demoColsResponse))
        demoItemsRes).itemsError ≠ none) := by
  have h := claim2_failfast_no_partial demoFetchState ["c1"] ["b1"] [] "b2"
    (some demoColsResponse) permErr demoItemsRes (by decide)
    (fun b' hb' => ⟨some [demoRawItem], by
      have : b' = "b1" := by simpa using hb'
      rw [this]
      rfl⟩)
    rfl
  exact h

/-! ## Claim C5 -/

/-- Counterexample to claim C5 as stated: at a tick where a background
refresh is still in flight (`isPolling = true`) but no foreground load is
running and both selections are non-empty, the guard still runs the
refresh — an in-flight background refresh does not suppress the tick, so
two background refreshes can overlap. -/
theorem claim5_counterexample :
    pollingTickRunsFetch pollingBusyState = true ∧ pollingBusyState.isPolling = true := by
  refine ⟨by decide, by decide⟩

/-- Claim C5, amended: the tick is skipped whenever a foreground
(initial/selection-triggered) load is in flight — any of `isAppLoading`,
`isLoadingColumns`, `isLoadingItems` — or a selection is empty; the guard
is independent of `isPolling`, so an in-flight background refresh does
not suppress the tick. -/
theorem claim5_amended :
    (∀ s : PollFlags,
      (s.isAppLoading || s.isLoadingColumns || s.isLoadingItems) = true →
        pollingTickRunsFetch s = false) ∧
    (∀ (s : PollFlags) (b : Bool),
      pollingTickRunsFetch { s with isPolling := b } = pollingTickRunsFetch s) ∧
    (∀ s : PollFlags,
      (s.selectedBoardIds = [] ∨ s.selectedColumnIds = []) →
        pollingTickRunsFetch s = false) := by
  refine ⟨?_, ?_, ?_⟩
  · intro s h
    rcases Bool.or_eq_true_iff.mp h with h' | h''
    · rcases Bool.or_eq_true_iff.mp h' with h1 | h2
      · simp [pollingTickRunsFetch, h1]
      · simp [pollingTickRunsFetch, h2]
    · simp [pollingTickRunsFetch, h'']
  · intro s b
    rfl
  · intro s h
    rcases h with h | h
    · simp [pollingTickRunsFetch, h]
    · simp [pollingTickRunsFetch, h]

/-- Witness for the amended C5: with columns loading, the tick is
skipped; flipping `isPolling` never changes the guard; with no boards
selected, the tick is skipped. -/
theorem claim5_amended_witness :
    pollingTickRunsFetch ⟨false, true, false, false, ["b1"], ["c1"]⟩ = false ∧
    pollingTickRunsFetch ⟨false, false, false, true, ["b1"], ["c1"]⟩ =
      pollingTickRunsFetch ⟨false, false, false, false, ["b1"], ["c1"]⟩ ∧
    pollingTickRunsFetch ⟨false, false, false, false, [], ["c1"]⟩ = false := by
  refine ⟨claim5_amended.1 _ (by decide),
    claim5_amended.2.1 ⟨false, false, false, false, ["b1"], ["c1"]⟩ true,
    claim5_amended.2.2 _ (Or.inl rfl)⟩

/-! ## Claim C6 -/

/-- Claim C6: for every item and every active status-column filter, the
item passes the filter iff its normalized status label — empty, `-`,
`undefined` and `null` all normalizing to `No status` — is a member of the
filter's selected label set.  (In particular an item with status text
`""` passes a `No status` selection and fails a `Done` selection; the
witness instantiates this.) -/
theorem claim6_status_filter (cols : List ColumnMeta) (it : Item) (cid : String)
    (sel : List String) (meta : ColumnMeta)
    (hcu : cid ≠ "current_user_filter") (hsel : sel ≠ [])
    (hfind : cols.find? (fun c => c.id = cid) = some meta)
    (htype : meta.type = "status") :
    itemPassesFilter cols it cid sel =
      sel.contains (normalizeStatus (rawStatusText
        (it.column_values.find? (fun cv => cv.id = cid)))) := by
  simp [itemPassesFilter, hcu, hfind, htype, hsel]

/-- Witness for C6: the empty-status item passes the `No status` filter
and fails the `Done` filter; a `Done` item passes the `Done` filter. -/
theorem claim6_status_filter_witness :
    itemPassesFilter [statusMeta] emptyStatusItem "statusCol" ["No status"] = true ∧
    itemPassesFilter [statusMeta] emptyStatusItem "statusCol" ["Done"] = false ∧
    itemPassesFilter [statusMeta] doneStatusItem "statusCol" ["Done"] = true := by
  have h1 := claim6_status_filter [statusMeta] emptyStatusItem "statusCol" ["No status"]
    statusMeta (by decide) (by decide) (by decide) rfl
  have h2 := claim6_status_filter [statusMeta] emptyStatusItem "statusCol" ["Done"]
    statusMeta (by decide) (by decide) (by decide) rfl
  have h3 := claim6_status_filter [statusMeta] doneStatusItem "statusCol" ["Done"]
    statusMeta (by decide) (by decide) (by decide) rfl
  refine ⟨?_, ?_, ?_⟩
  · rw [h1]
    decide
  · rw [h2]
    decide
  · rw [h3]
    decide

/-! ## Claim C7 -/

/-- Counterexample to claim C7 as stated: under ascending date sort, an
item with absent date text does not compare below every item with a
parseable date — against a parseable 1960 date it compares above (the
absent value maps to the 1970 epoch, not the lowest value), and the full
derivation orders the 1960 item first; an item with unparseable date
text compares equal (0), not below, against a parseable 2020 date. -/
theorem claim7_counterexample :
    0 < sortCompare [] dateMeta "dateCol" "asc" itemDateAbsent itemDate1960 ∧
    sortCompare [] dateMeta "dateCol" "asc" itemDateBad itemDate2020 = 0 ∧
    filteredAndSortedBoardItems [] [dateMeta] [] none [] [("dateCol", "asc")]
      [itemDateAbsent, itemDate1960] = [itemDate1960, itemDateAbsent] := by
  refine ⟨by decide, by decide, by rfl⟩

/-- Claim C7, amended: when sorting by a date column, each side's value is
`new Date(text)` — the epoch (key 0) when the column value or its text is
absent or empty, an invalid date when the text does not parse; the
ascending comparator is the difference of the two epoch keys, and any
comparison involving an invalid date yields NaN, which the sort treats as
0 (equal) — so absent-date items sort at the epoch (above pre-1970
dates, below post-1970 dates) and unparseable-date items compare equal
to everything, not as the lowest value. -/
theorem claim7_amended :
    (∀ (cached : List (String × UserRec)) (meta : ColumnMeta) (sortId : String) (a b : Item),
      meta.type = "date" → sortId ≠ "item_name_column" → sortId ≠ "board_name_column" →
      sortCompare cached meta sortId "asc" a b =
        (match dateSortKey (a.column_values.find? (fun cv => cv.id = sortId)),
               dateSortKey (b.column_values.find? (fun cv => cv.id = sortId)) with
         | some x, some y => ((x - y : Int) : Rat)
         | _, _ => 0)) ∧
    dateSortKey none = some 0 ∧
    (∀ c : ColumnValue, c.text = none ∨ c.text = some "" → dateSortKey (some c) = some 0) ∧
    jsDateMs "1960-01-01" = some (-315619200000) ∧
    jsDateMs "not a date" = none := by
  refine ⟨?_, rfl, ?_, by decide, by decide⟩
  · intro cached meta sortId a b htype h1 h2
    cases hka : dateSortKey (a.column_values.find? (fun cv => cv.id = sortId)) with
    | some x =>
      cases hkb : dateSortKey (b.column_values.find? (fun cv => cv.id = sortId)) with
      | some y => simp [sortCompare, sortCompareRaw, sortValues, htype, h1, h2, hka, hkb]
      | none => simp [sortCompare, sortCompareRaw, sortValues, htype, h1, h2, hka, hkb]
    | none =>
      cases hkb : dateSortKey (b.column_values.find? (fun cv => cv.id = sortId)) with
      | some y => simp [sortCompare, sortCompareRaw, sortValues, htype, h1, h2, hka, hkb]
      | none => simp [sortCompare, sortCompareRaw, sortValues, htype, h1, h2, hka, hkb]
  · intro c hc
    rcases hc with hc | hc
    · simp [dateSortKey, hc]
    · simp [dateSortKey, hc]

/-- Witness for the amended C7: the comparator on the 2020-vs-1960 pair
equals the difference of their epoch keys, and on the unparseable-vs-2020
pair the key match yields 0; the absent-text cell keys to the epoch. -/
theorem claim7_amended_witness :
    (sortCompare [] dateMeta "dateCol" "asc" itemDate2020 itemDate1960 =
      (match dateSortKey (itemDate2020.column_values.find? (fun cv => cv.id = "dateCol")),
             dateSortKey (itemDate1960.column_values.find? (fun cv => cv.id = "dateCol")) with
       | some x, some y => ((x - y : Int) : Rat)
       | _, _ => 0)) ∧
    (sortCompare [] dateMeta "dateCol" "asc" itemDateBad itemDate2020 =
      (match dateSortKey (itemDateBad.column_values.find? (fun cv => cv.id = "dateCol")),
             dateSortKey (itemDate2020.column_values.find? (fun cv => cv.id = "dateCol")) with
       | some x, some y => ((x - y : Int) : Rat)
       | _, _ => 0)) ∧
    dateSortKey (some ⟨"dateCol", none, RawValue.nullv, none⟩) = some 0 := by
  refine ⟨?_, ?_, ?_⟩
  · exact claim7_amended.1 [] dateMeta "dateCol" itemDate2020 itemDate1960 rfl
      (by decide) (by decide)
  · exact claim7_amended.1 [] dateMeta "dateCol" itemDateBad itemDate2020 rfl
      (by decide) (by decide)
  · exact claim7_amended.2.2.1 ⟨"dateCol", none, RawValue.nullv, none⟩ (Or.inl rfl)

/-! ## Claim C10 -/

/-- A filter entry whose selected-value list is empty passes every item
(`if (!selectedValues || selectedValues.length === 0) return true`). -/
theorem itemPassesFilter_empty_sel (cols : List ColumnMeta) (it : Item) (cid : String) :
    itemPassesFilter cols it cid [] = true := by
  by_cases h : cid = "current_user_filter"
  · simp [itemPassesFilter, h]
  · simp [itemPassesFilter, h]

/-- Adding an emptied filter entry does not change the state of the
`current_user_filter` pseudo-entry lookup. -/
theorem lookup_cuf_cons_empty (filters : List (String × List String)) (cid : String)
    (h : ∀ e ∈ filters, e.1 ≠ cid) :
    (filterLookup ((cid, ([] : List String)) :: filters) "current_user_filter").contains "true" =
      (filterLookup filters "current_user_filter").contains "true" := by
  by_cases hc : cid = "current_user_filter"
  · subst hc
    have h2 : filters.find? (fun e => e.1 = "current_user_filter") = none :=
      List.find?_eq_none.mpr (fun e he => by simpa using h e he)
    unfold filterLookup
    rw [List.find?_cons_of_pos _ (by simp), h2]
  · unfold filterLookup
    rw [List.find?_cons_of_neg _ (by simp [hc])]

/-- Adding an emptied filter entry does not change the current-user
pre-pass. -/
theorem currentUserPre_cons_empty (allCols : List ColumnMeta)
    (filters : List (String × List String)) (uid : Option String) (items : List Item)
    (cid : String) (h : ∀ e ∈ filters, e.1 ≠ cid) :
    currentUserPrefilterPass allCols ((cid, []) :: filters) uid items =
      currentUserPrefilterPass allCols filters uid items := by
  unfold currentUserPrefilterPass
  rw [lookup_cuf_cons_empty filters cid h]

/-- Adding an emptied filter entry does not change the filter pass. -/
theorem applyActiveFilters_cons_empty (colsT : List ColumnMeta)
    (filters : List (String × List String)) (items : List Item) (cid : String) :
    applyActiveFilters colsT ((cid, []) :: filters) items =
      applyActiveFilters colsT filters items := by
  unfold applyActiveFilters
  apply List.filter_congr
  intro it _
  simp [itemPassesFilter_empty_sel]

/-- Claim C10: a per-column filter whose selected-value set is empty — for
example after every one of its values has been individually unchecked,
which leaves an empty list in the filter map — imposes no constraint:
every item passes that entry, and the derived view with the emptied
entry present equals the view without any filter on that column. -/
theorem claim10_empty_filter_inert :
    (∀ (cols : List ColumnMeta) (it : Item) (cid : String),
      itemPassesFilter cols it cid [] = true) ∧
    (∀ (allCols colsT : List ColumnMeta) (cached : List (String × UserRec))
      (uid : Option String) (filters : List (String × List String))
      (sorting : List (String × String)) (items : List Item) (cid : String),
      (∀ e ∈ filters, e.1 ≠ cid) →
      filteredAndSortedBoardItems allCols colsT cached uid ((cid, []) :: filters)
          sorting items =
        filteredAndSortedBoardItems allCols colsT cached uid filters sorting items) ∧
    (∀ cid v : String, handleFilterChange [(cid, [v])] cid v false = [(cid, [])]) := by
  refine ⟨itemPassesFilter_empty_sel, ?_, ?_⟩
  · intro allCols colsT cached uid filters sorting items cid h
    unfold filteredAndSortedBoardItems
    rw [currentUserPre_cons_empty allCols filters uid items cid h,
      applyActiveFilters_cons_empty]
  · intro cid v
    unfold handleFilterChange filterLookup
    rw [List.find?_cons_of_pos _ (by simp)]
    simp

/-- Witness for C10: with a `Done` status filter on another column in
place, adding an emptied filter entry for column `x` leaves the derived
view unchanged; and unchecking the only selected value of a filter
leaves an empty, inert entry. -/
theorem claim10_empty_filter_inert_witness :
    itemPassesFilter [statusMeta] doneStatusItem "x" [] = true ∧
    filteredAndSortedBoardItems [statusMeta] [statusMeta] [] none
        (("x", []) :: [("statusCol", ["Done"])]) [] [emptyStatusItem, doneStatusItem] =
      filteredAndSortedBoardItems [statusMeta] [statusMeta] [] none
        [("statusCol", ["Done"])] [] [emptyStatusItem, doneStatusItem] ∧
    handleFilterChange [("statusCol", ["Done"])] "statusCol" "Done" false =
      [("statusCol", [])] := by
  refine ⟨claim10_empty_filter_inert.1 [statusMeta] doneStatusItem "x", ?_, ?_⟩
  · exact claim10_empty_filter_inert.2.1 [statusMeta] [statusMeta] [] none
      [("statusCol", ["Done"])] [] [emptyStatusItem, doneStatusItem] "x"
      (by decide)
  · exact claim10_empty_filter_inert.2.2 "statusCol" "Done"

/-! ## Claims C8 and C9 -/

/-- Claim C8: saving the view state and loading it back restores the
saved selected boards, selected columns and panel visibility unchanged
(the stored JSON round-trips), with no app error; and loading after the
stored value was replaced by a non-JSON string yields the empty/default
state without throwing. -/
theorem claim8_settings_roundtrip :
    (∀ (selB selC : List String) (sidebar : Bool),
      loadSettings (some (saveSettingsAutomatically selB selC sidebar)) =
        ⟨selB, selC, sidebar, none, false⟩) ∧
    (∀ s : String,
      (loadSettings (some (StoredVal.strVal (StoredStr.notJson s)))).selectedBoardIds = [] ∧
      (loadSettings (some (StoredVal.strVal (StoredStr.notJson s)))).selectedColumnIds = [] ∧
      (loadSettings (some (StoredVal.strVal (StoredStr.notJson s)))).isSidebarOpen = false ∧
      (loadSettings (some (StoredVal.strVal (StoredStr.notJson s)))).appError = none) := by
  constructor
  · intro selB selC sidebar
    rfl
  · intro s
    exact ⟨rfl, rfl, rfl, rfl⟩

/-- Claim C9: a corrupted stored settings value — a string that fails to
parse as JSON, or a non-string value — is treated as absent (all
selections keep their empty defaults), the corrupted entry is deleted
from storage, and no app-level error is raised. -/
theorem claim9_corrupt_settings_recovery :
    (∀ s : String,
      loadSettings (some (StoredVal.strVal (StoredStr.notJson s))) =
        ⟨[], [], false, none, true⟩) ∧
    loadSettings (some StoredVal.notAString) = ⟨[], [], false, none, true⟩ := by
  exact ⟨fun s => rfl, rfl⟩

end MWV
